import Mathlib

/-!
Shallow embedding of the shared-array-buffer demo: a main-thread controller
(`SharedBufferDemo.tsx`) allocates a `SharedArrayBuffer` holding `bufferSize`
float64 payload slots followed by one int32 synchronization word, and a worker
(`shared-buffer.worker.ts`) fills the payload with `Math.sqrt(i * iter)` over
`iterations` passes, then atomically stores `1` into the synchronization word,
notifies it, and posts a `shared-complete` message.

JS numbers occurring in messages are modelled as rationals (`ℚ`); payload
values are real numbers, with `Math.sqrt` abstracted as an arbitrary function
`sqrtFn : ℕ → ℝ` applied to the exact natural product `i * iter` (IEEE-754
rounding of the square root itself is outside the scope of this embedding, and
every theorem below is invariant under the choice of `sqrtFn`).
-/

/-! ## Shared region byte layout (`startSharedCalculation` in SharedBufferDemo.tsx) -/

/-- `Float64Array.BYTES_PER_ELEMENT`. -/
def FLOAT64_BYTES_PER_ELEMENT : ℕ := 8

/-- `Int32Array.BYTES_PER_ELEMENT`. -/
def INT32_BYTES_PER_ELEMENT : ℕ := 4

/-- `const floatArrayByteSize = bufferSize * Float64Array.BYTES_PER_ELEMENT`. -/
def floatArrayByteSize (bufferSize : ℕ) : ℕ :=
  bufferSize * FLOAT64_BYTES_PER_ELEMENT

/-- `const syncFlagByteOffset = floatArrayByteSize`. -/
def syncFlagByteOffset (bufferSize : ℕ) : ℕ :=
  floatArrayByteSize bufferSize

/-- `const totalByteSize = floatArrayByteSize + Int32Array.BYTES_PER_ELEMENT`. -/
def totalByteSize (bufferSize : ℕ) : ℕ :=
  floatArrayByteSize bufferSize + INT32_BYTES_PER_ELEMENT

/-! ## JS values and the worker's start-message validation
(`isSharedBufferMessage` in shared-buffer.worker.ts) -/

/-- A JavaScript value as far as the worker's type guard can distinguish them:
`typeof x === "number"` (modelled as a rational, so that zero, negative and
non-integer numbers are representable), strings, booleans,
`instanceof SharedArrayBuffer` (carrying its byte length), and `undefined`. -/
inductive JSValue where
  | num (q : ℚ)
  | str (s : String)
  | boolean (b : Bool)
  | sab (byteLength : ℕ)
  | undef
  deriving DecidableEq

/-- An incoming worker message object: its `type` string plus the three fields
the type guard inspects. A field that is absent from the object (`'buffer' in
message` false) is `none`. -/
structure WorkerMessage where
  type : String
  buffer : Option JSValue
  bufferSize : Option JSValue
  iterations : Option JSValue
  deriving DecidableEq

/-- Does `v` pass `x instanceof SharedArrayBuffer`? -/
def isSAB : Option JSValue → Bool
  | some (JSValue.sab _) => true
  | _ => false

/-- Does `v` pass `typeof x === "number"`? -/
def isNumber : Option JSValue → Bool
  | some (JSValue.num _) => true
  | _ => false

/-- `isSharedBufferMessage` from shared-buffer.worker.ts: the message type is
`'compute-shared'`, `buffer` is present and a `SharedArrayBuffer`, and
`bufferSize` and `iterations` are present and of number type. -/
def isSharedBufferMessage (message : WorkerMessage) : Bool :=
  message.type == "compute-shared" &&
  isSAB message.buffer &&
  isNumber message.bufferSize &&
  isNumber message.iterations

/-! ## Worker computation (`performSharedCalculation` in shared-buffer.worker.ts) -/

/-- `sharedArray[i] = v`: pointwise update of the payload, viewed as a map
from index to value. -/
def setIdx (a : ℕ → ℝ) (i : ℕ) (v : ℝ) : ℕ → ℝ :=
  fun j => if j = i then v else a j

/-- The inner loop of one pass:
`for (let i = 0; i < size; i++) sharedArray[i] = Math.sqrt(i * iter)`,
with `Math.sqrt` abstracted by `sqrtFn` applied to the exact product. -/
def passWrites (sqrtFn : ℕ → ℝ) (size iter : ℕ) (a : ℕ → ℝ) : ℕ → ℝ :=
  (List.range size).foldl (fun acc i => setIdx acc i (sqrtFn (i * iter))) a

/-- `Math.max(1, Math.floor(iterations / 20))`: the spacing of the in-loop
progress checkpoints. -/
def checkpointStep (iterations : ℕ) : ℕ := max 1 (iterations / 20)

/-- `Math.floor((iter / iterations) * 100)`, idealized over exact rationals as
natural floor division (the order-theoretic facts proved below do not depend
on double-precision rounding, which is monotone). -/
def progressPercent (iter iterations : ℕ) : ℕ := iter * 100 / iterations

/-- State threaded through the worker's pass loop: the shared payload plus the
progress percentages posted via `onProgress` so far, in order. -/
structure CalcState where
  payload : ℕ → ℝ
  msgs : List ℕ

/-- One iteration `iter` of the outer loop: first the checkpoint test
`iter % Math.max(1, Math.floor(iterations / 20)) === 0` posts
`onProgress(Math.floor((iter / iterations) * 100))`, then the inner loop
overwrites every payload slot with `Math.sqrt(i * iter)`. -/
def calcIter (sqrtFn : ℕ → ℝ) (size iterations iter : ℕ) (st : CalcState) :
    CalcState :=
  let st1 := if iter % checkpointStep iterations = 0
    then { st with msgs := st.msgs ++ [progressPercent iter iterations] }
    else st
  { st1 with payload := passWrites sqrtFn size iter st1.payload }

/-- `performSharedCalculation(sharedArray, size, iterations, onProgress)`:
`iterations` sequential passes over the payload, then a final
`onProgress(100)`. Returns the final payload together with the posted
progress values in order. -/
def performSharedCalculation (sqrtFn : ℕ → ℝ) (size iterations : ℕ)
    (a : ℕ → ℝ) : CalcState :=
  let final := (List.range iterations).foldl
    (fun st iter => calcIter sqrtFn size iterations iter st)
    { payload := a, msgs := [] }
  { final with msgs := final.msgs ++ [100] }

/-- The payload component of the pass loop alone. -/
def enginePayload (sqrtFn : ℕ → ℝ) (size iterations : ℕ) (a : ℕ → ℝ) :
    ℕ → ℝ :=
  (List.range iterations).foldl (fun acc iter => passWrites sqrtFn size iter acc) a

/-- The loop iterations at which the checkpoint test fires. -/
def checkpointIters (iterations : ℕ) : List ℕ :=
  (List.range iterations).filter (fun iter => iter % checkpointStep iterations = 0)

/-- Closed form of the progress values posted by `performSharedCalculation`:
one per checkpoint iteration, plus the final `100`. -/
def emittedProgress (iterations : ℕ) : List ℕ :=
  (checkpointIters iterations).map (fun iter => progressPercent iter iterations)
    ++ [100]

lemma foldl_calcIter (sqrtFn : ℕ → ℝ) (size iterations : ℕ) (l : List ℕ)
    (st : CalcState) :
    l.foldl (fun st iter => calcIter sqrtFn size iterations iter st) st =
      { payload := l.foldl (fun acc iter => passWrites sqrtFn size iter acc) st.payload
        msgs := st.msgs ++
          (l.filter (fun iter => iter % checkpointStep iterations = 0)).map
            (fun iter => progressPercent iter iterations) } := by
  induction l generalizing st with
  | nil => simp
  | cons x xs ih =>
    simp only [List.foldl_cons, List.filter_cons]
    rw [ih]
    by_cases h : x % checkpointStep iterations = 0 <;>
      simp [calcIter, h]

lemma performSharedCalculation_payload (sqrtFn : ℕ → ℝ) (size iterations : ℕ)
    (a : ℕ → ℝ) :
    (performSharedCalculation sqrtFn size iterations a).payload =
      enginePayload sqrtFn size iterations a := by
  rw [performSharedCalculation, foldl_calcIter]
  rfl

lemma performSharedCalculation_msgs (sqrtFn : ℕ → ℝ) (size iterations : ℕ)
    (a : ℕ → ℝ) :
    (performSharedCalculation sqrtFn size iterations a).msgs =
      emittedProgress iterations := by
  rw [performSharedCalculation, foldl_calcIter]
  rfl

lemma passWrites_eval (sqrtFn : ℕ → ℝ) (size iter : ℕ) (a : ℕ → ℝ) (i : ℕ) :
    passWrites sqrtFn size iter a i =
      if i < size then sqrtFn (i * iter) else a i := by
  induction size generalizing a with
  | zero => simp [passWrites]
  | succ s ih =>
    rw [passWrites, List.range_succ, List.foldl_append]
    simp only [List.foldl_cons, List.foldl_nil]
    rw [show ∀ b, (List.range s).foldl
        (fun acc i => setIdx acc i (sqrtFn (i * iter))) b =
        passWrites sqrtFn s iter b from fun _ => rfl]
    by_cases h : i = s
    · subst h
      simp [setIdx]
    · simp only [setIdx, h, if_false]
      rw [ih]
      by_cases hlt : i < s
      · simp [hlt, Nat.lt_succ_of_lt hlt]
      · have : ¬ i < s + 1 := by omega
        simp [hlt, this]

lemma enginePayload_eval (sqrtFn : ℕ → ℝ) (size iterations : ℕ) (a : ℕ → ℝ)
    (i : ℕ) (h1 : 1 ≤ iterations) (h2 : i < size) :
    enginePayload sqrtFn size iterations a i = sqrtFn (i * (iterations - 1)) := by
  obtain ⟨n, rfl⟩ : ∃ n, iterations = n + 1 := ⟨iterations - 1, by omega⟩
  rw [enginePayload, List.range_succ, List.foldl_append]
  simp only [List.foldl_cons, List.foldl_nil, Nat.add_sub_cancel]
  rw [passWrites_eval]
  simp [h2]

lemma isSharedBufferMessage_shape (m : WorkerMessage) :
    isSharedBufferMessage m = true ↔
      m.type = "compute-shared" ∧
      (∃ n, m.buffer = some (JSValue.sab n)) ∧
      (∃ q, m.bufferSize = some (JSValue.num q)) ∧
      (∃ q, m.iterations = some (JSValue.num q)) := by
  obtain ⟨t, b, bs, its⟩ := m
  simp only [isSharedBufferMessage, Bool.and_eq_true, beq_iff_eq]
  constructor
  · rintro ⟨⟨⟨ht, hb⟩, hbs⟩, hits⟩
    refine ⟨ht, ?_, ?_, ?_⟩
    · cases b with
      | some v => cases v <;> simp_all [isSAB]
      | none => simp [isSAB] at hb
    · cases bs with
      | some v => cases v <;> simp_all [isNumber]
      | none => simp [isNumber] at hbs
    · cases its with
      | some v => cases v <;> simp_all [isNumber]
      | none => simp [isNumber] at hits
  · rintro ⟨ht, ⟨n, hb⟩, ⟨q1, hbs⟩, ⟨q2, hits⟩⟩
    subst hb hbs hits
    exact ⟨⟨⟨ht, rfl⟩, rfl⟩, rfl⟩

/-! ## Shared region state, controller (SharedBufferDemo.tsx) and worker dispatch -/

/-- The shared region as both threads see it: the payload element count fixed
at allocation, the float64 payload values, and the int32 synchronization
word. -/
structure Region where
  size : ℕ
  payload : ℕ → ℝ
  syncFlag : ℕ

/-- The zero fill `for (let i = 0; i < bufferSize; i++) sharedArray[i] = 0`
run over a freshly allocated (zero-initialized) `SharedArrayBuffer`. -/
def zeroFill (bufferSize : ℕ) : ℕ → ℝ :=
  (List.range bufferSize).foldl (fun a i => setIdx a i 0) (fun _ => 0)

/-- The allocation part of `startSharedCalculation`: create the region of
`totalByteSize` bytes, zero the payload, and `Atomics.store(syncFlag, 0, 0)`. -/
def allocateRegion (bufferSize : ℕ) : Region :=
  { size := bufferSize, payload := zeroFill bufferSize, syncFlag := 0 }

/-- The controller's React state touched by the run logic: `isCalculating`,
`progress`, `result`, and whether the poll interval is still registered
(`intervalRef.current !== null`). -/
structure ControllerState where
  isCalculating : Bool
  progress : ℕ
  result : List ℝ
  intervalActive : Bool

/-- `Array.from(sharedBufferRef.current.array)`. -/
def payloadList (r : Region) : List ℝ :=
  (List.range r.size).map r.payload

/-- `Array.from(sharedBufferRef.current.array).slice(0, 10)`. -/
def readResults (r : Region) : List ℝ :=
  (payloadList r).take 10

/-- The controller's `onMessage` branch for `data.type === "shared-complete"`:
if the shared array reference is set, record the first ten payload values;
either way stop calculating, snap progress to `100`, and clear the poll
interval if it is still registered. -/
def handleSharedComplete (region : Option Region) (s : ControllerState) :
    ControllerState :=
  match region with
  | some r =>
    { s with result := readResults r, isCalculating := false, progress := 100,
             intervalActive := false }
  | none =>
    { s with isCalculating := false, progress := 100, intervalActive := false }

/-- The controller's `onMessage` branch for `data.type === "progress"`. -/
def handleProgressMessage (p : ℕ) (s : ControllerState) : ControllerState :=
  { s with progress := p }

/-- One tick of the 200ms poll interval: return early if the sync-flag
reference is null; otherwise `Atomics.load` the flag and, when it equals `1`,
record the first ten payload values, snap progress to `100`, stop calculating,
and clear the interval. -/
def pollTick (region : Option Region) (s : ControllerState) : ControllerState :=
  match region with
  | none => s
  | some r =>
    if r.syncFlag = 1 then
      { s with result := readResults r, progress := 100, isCalculating := false,
               intervalActive := false }
    else s

/-- The synthesized fallback progress update of the earlier demo variant
(part_000): `setProgress((prev) => Math.min(prev + 5, 95))`, run on each poll
tick while the flag is still `0`. -/
def synthesizedProgress (prev : ℕ) : ℕ := min (prev + 5) 95

/-- Messages the worker posts back to the controller. -/
inductive OutMessage where
  | progress (p : ℕ)
  | sharedComplete
  deriving DecidableEq

/-- Trip count of `for (let iter = 0; iter < q; iter++)` for a JS number `q`:
the number of naturals strictly below `q`, i.e. `⌈q⌉` clamped to zero. -/
def loopCount (q : ℚ) : ℕ := (⌈q⌉).toNat

/-- Effect of a *valid* `compute-shared` message on the shared region, with
the messages posted back in order: run `performSharedCalculation`, then
`Atomics.store(syncFlag, 0, 1)` and `Atomics.notify`, then post
`shared-complete`. -/
def handleComputeShared (sqrtFn : ℕ → ℝ) (bufferSize iterations : ℕ)
    (r : Region) : Region × List OutMessage :=
  let st := performSharedCalculation sqrtFn bufferSize iterations r.payload
  ({ r with payload := st.payload, syncFlag := 1 },
   st.msgs.map OutMessage.progress ++ [OutMessage.sharedComplete])

/-- The worker's message listener: dispatch on `data.type`, validate with
`isSharedBufferMessage`, and on validation failure log and do nothing — the
region is untouched and nothing is posted. -/
def workerOnMessage (sqrtFn : ℕ → ℝ) (m : WorkerMessage) (r : Region) :
    Region × List OutMessage :=
  if m.type = "compute-shared" then
    if isSharedBufferMessage m then
      match m.bufferSize, m.iterations with
      | some (JSValue.num bs), some (JSValue.num its) =>
        handleComputeShared sqrtFn (loopCount bs) (loopCount its) r
      | _, _ => (r, [])
    else (r, [])
  else (r, [])

/-- Events that can touch a run's state: a message arriving at the worker, a
controller poll tick, a `shared-complete` push, a `progress` push. -/
inductive SysEvent where
  | workerMessage (m : WorkerMessage)
  | pollTickEv
  | completeMsgEv
  | progressMsgEv (p : ℕ)

/-- Joint state of a run: the shared region plus the controller's state. -/
structure SysState where
  region : Region
  ctrl : ControllerState

/-- One event of a run. Only the worker's message handler ever writes the
region; the three controller events read it at most. -/
def sysStep (sqrtFn : ℕ → ℝ) (e : SysEvent) (s : SysState) : SysState :=
  match e with
  | SysEvent.workerMessage m =>
    { s with region := (workerOnMessage sqrtFn m s.region).1 }
  | SysEvent.pollTickEv => { s with ctrl := pollTick (some s.region) s.ctrl }
  | SysEvent.completeMsgEv =>
    { s with ctrl := handleSharedComplete (some s.region) s.ctrl }
  | SysEvent.progressMsgEv p =>
    { s with ctrl := handleProgressMessage p s.ctrl }

/-! ## The worker's externally visible action order (for completion
publication) -/

/-- One externally visible action of the worker while handling a valid
`compute-shared` message: posting a control message, the atomic store into
the synchronization word, or the `Atomics.notify` wake. -/
inductive EngineAction where
  | post (msg : OutMessage)
  | storeFlag (v : ℕ)
  | notifyFlag
  deriving DecidableEq

/-- Effect of one action on the synchronization word: only `storeFlag`
writes it. -/
def applyAction (f : ℕ) : EngineAction → ℕ
  | EngineAction.storeFlag v => v
  | _ => f

/-- The synchronization word's value after executing a sequence of worker
actions, starting from value `f`. -/
def execFlag (l : List EngineAction) (f : ℕ) : ℕ :=
  l.foldl applyAction f

/-- The worker's actions in program order for a valid `compute-shared`
message: the progress posts made inside `performSharedCalculation`, then
`Atomics.store(syncFlag, 0, 1)`, then `Atomics.notify(syncFlag, 0, 1)`, then
the `shared-complete` post. -/
def engineActions (iterations : ℕ) : List EngineAction :=
  (emittedProgress iterations).map
      (fun p => EngineAction.post (OutMessage.progress p)) ++
    [EngineAction.storeFlag 1, EngineAction.notifyFlag,
     EngineAction.post OutMessage.sharedComplete]

/-- The progress values surfaced by the controller over a push-driven run:
`setProgress(0)` at start, each worker progress value in arrival order, then
`setProgress(100)` on completion. -/
def surfacedProgress (iterations : ℕ) : List ℕ :=
  0 :: (emittedProgress iterations ++ [100])

/-- How many times the checkpoint test fires inside the pass loop. -/
def inLoopEmissions (iterations : ℕ) : ℕ :=
  (checkpointIters iterations).length



/-! ## Theorems -/

/-- **C2**: the allocated region's total byte length is exactly
`bufferSize * 8 + 4`, with the payload segment of `bufferSize * 8` bytes at
offset 0 and the 4-byte synchronization word at byte offset `bufferSize * 8`;
`bufferSize = 0` yields a 4-byte region. -/
theorem region_layout_exact (bufferSize : ℕ) :
    totalByteSize bufferSize = bufferSize * 8 + 4 ∧
    floatArrayByteSize bufferSize = bufferSize * 8 ∧
    syncFlagByteOffset bufferSize = bufferSize * 8 ∧
    totalByteSize 0 = 4 := by
  refine ⟨rfl, rfl, rfl, rfl⟩

/-- **C3, counterexample**: the worker's start-message validation accepts a
`compute-shared` message whose `bufferSize` is the number `0` and whose
`iterations` is the non-integer number `1/2` — so validation does *not*
restrict the parameters to positive integers. -/
theorem isSharedBufferMessage_accepts_nonpositive_noninteger :
    isSharedBufferMessage
      { type := "compute-shared"
        buffer := some (JSValue.sab 4)
        bufferSize := some (JSValue.num 0)
        iterations := some (JSValue.num (1/2)) } = true := by
  decide

/-- **C3, amended**: the worker's start-message validation checks only the
*shape* of the message — type tag `'compute-shared'`, a `SharedArrayBuffer`
in `buffer`, and values of number type in `bufferSize` and `iterations`; any
number (zero, negative or non-integer included) is accepted. -/
theorem isSharedBufferMessage_iff (m : WorkerMessage) :
    isSharedBufferMessage m = true ↔
      m.type = "compute-shared" ∧
      (∃ n, m.buffer = some (JSValue.sab n)) ∧
      (∃ q, m.bufferSize = some (JSValue.num q)) ∧
      (∃ q, m.iterations = some (JSValue.num q)) :=
  isSharedBufferMessage_shape m

/-- **C1**: for every `bufferSize ≥ 0` and `iterations ≥ 1`, after the pass
loop finishes, payload position `i` holds `sqrt(i * (iterations - 1))` for
every `i < bufferSize`: pass `iter` writes `sqrt(i * iter)` everywhere, and
the last pass (`iter = iterations - 1`) overwrites all earlier ones. Stated
for an arbitrary interpretation `sqrtFn` of `Math.sqrt`. -/
theorem final_payload_is_sqrt_of_last_pass (sqrtFn : ℕ → ℝ)
    (bufferSize iterations : ℕ) (a : ℕ → ℝ) (i : ℕ)
    (h1 : 1 ≤ iterations) (h2 : i < bufferSize) :
    (performSharedCalculation sqrtFn bufferSize iterations a).payload i =
      sqrtFn (i * (iterations - 1)) := by
  rw [performSharedCalculation_payload]
  exact enginePayload_eval sqrtFn bufferSize iterations a i h1 h2

/-- Witness for C1 at `bufferSize = 3`, `iterations = 4`, `i = 2`. -/
theorem final_payload_is_sqrt_of_last_pass_witness :
    (performSharedCalculation (fun n => (n : ℝ)) 3 4 (fun _ => 0)).payload 2 =
      ((6 : ℕ) : ℝ) :=
  final_payload_is_sqrt_of_last_pass (fun n => (n : ℝ)) 3 4 (fun _ => 0) 2
    (by norm_num) (by norm_num)

lemma workerOnMessage_invalid (sqrtFn : ℕ → ℝ) (m : WorkerMessage) (r : Region)
    (h : isSharedBufferMessage m = false) :
    workerOnMessage sqrtFn m r = (r, []) := by
  unfold workerOnMessage
  by_cases ht : m.type = "compute-shared" <;> simp [ht, h]

lemma workerOnMessage_valid (sqrtFn : ℕ → ℝ) (m : WorkerMessage) (r : Region)
    (h : isSharedBufferMessage m = true) :
    ∃ bs its, m.bufferSize = some (JSValue.num bs) ∧
      m.iterations = some (JSValue.num its) ∧
      workerOnMessage sqrtFn m r =
        handleComputeShared sqrtFn (loopCount bs) (loopCount its) r := by
  obtain ⟨ht, ⟨nb, hb⟩, ⟨q1, hbs⟩, ⟨q2, hits⟩⟩ :=
    (isSharedBufferMessage_shape m).1 h
  exact ⟨q1, q2, hbs, hits, by simp [workerOnMessage, ht, h, hbs, hits]⟩

lemma workerOnMessage_flag (sqrtFn : ℕ → ℝ) (m : WorkerMessage) (r : Region) :
    (workerOnMessage sqrtFn m r).1.syncFlag = r.syncFlag ∨
      (workerOnMessage sqrtFn m r).1.syncFlag = 1 := by
  by_cases h : isSharedBufferMessage m = true
  · obtain ⟨bs, its, _, _, heq⟩ := workerOnMessage_valid sqrtFn m r h
    right
    rw [heq]
    rfl
  · left
    rw [workerOnMessage_invalid sqrtFn m r (by simpa using h)]

/-- **C4**: a `compute-shared` message that fails the worker's validation is
dropped: the shared region is left unchanged (no payload write, no flag
store) and no message of any kind is posted back to the controller. -/
theorem malformed_message_dropped (sqrtFn : ℕ → ℝ) (m : WorkerMessage)
    (r : Region) (h : isSharedBufferMessage m = false) :
    workerOnMessage sqrtFn m r = (r, []) :=
  workerOnMessage_invalid sqrtFn m r h

/-- Witness for C4: a `compute-shared` message with no `buffer` field is
dropped without touching a freshly allocated region. -/
theorem malformed_message_dropped_witness :
    workerOnMessage (fun n => (n : ℝ))
      { type := "compute-shared", buffer := none
        bufferSize := some (JSValue.num 3), iterations := some (JSValue.num 3) }
      (allocateRegion 3) = (allocateRegion 3, []) :=
  malformed_message_dropped (fun n => (n : ℝ)) _ (allocateRegion 3) (by decide)

/-- **C5**: completion handling is idempotent. Handling `shared-complete`
twice is a no-op the second time; a poll tick after `shared-complete` has
been handled changes nothing (including the already-cleared interval); and
handling `shared-complete` after the poll path already observed the flag as
`1` changes nothing. The recorded result is not altered in any of these. -/
theorem completion_handling_idempotent (ro : Option Region) (r : Region)
    (s t u : ControllerState) (h : r.syncFlag = 1) :
    handleSharedComplete ro (handleSharedComplete ro s) =
      handleSharedComplete ro s ∧
    pollTick ro (handleSharedComplete ro t) = handleSharedComplete ro t ∧
    handleSharedComplete (some r) (pollTick (some r) u) =
      pollTick (some r) u := by
  refine ⟨?_, ?_, ?_⟩
  · cases ro <;> simp [handleSharedComplete]
  · cases ro with
    | none => simp [pollTick, handleSharedComplete]
    | some r' =>
      by_cases hf : r'.syncFlag = 1 <;>
        simp [pollTick, handleSharedComplete, hf]
  · simp [pollTick, h, handleSharedComplete]

/-- Witness for C5 on a completed two-element region. -/
theorem completion_handling_idempotent_witness :
    (handleSharedComplete (some ⟨2, fun _ => 0, 1⟩)
        (handleSharedComplete (some ⟨2, fun _ => 0, 1⟩)
          ⟨true, 0, [], true⟩) =
      handleSharedComplete (some ⟨2, fun _ => 0, 1⟩) ⟨true, 0, [], true⟩) ∧
    (pollTick (some ⟨2, fun _ => 0, 1⟩)
        (handleSharedComplete (some ⟨2, fun _ => 0, 1⟩) ⟨true, 0, [], true⟩) =
      handleSharedComplete (some ⟨2, fun _ => 0, 1⟩) ⟨true, 0, [], true⟩) ∧
    (handleSharedComplete (some ⟨2, fun _ => 0, 1⟩)
        (pollTick (some ⟨2, fun _ => 0, 1⟩) ⟨true, 0, [], true⟩) =
      pollTick (some ⟨2, fun _ => 0, 1⟩) ⟨true, 0, [], true⟩) :=
  completion_handling_idempotent (some ⟨2, fun _ => 0, 1⟩) ⟨2, fun _ => 0, 1⟩
    ⟨true, 0, [], true⟩ ⟨true, 0, [], true⟩ ⟨true, 0, [], true⟩ rfl

/-- **C10**: on completion — via the push message or the poll path — the
controller records only the first `min(10, bufferSize)` payload values: the
surfaced result never has more than 10 elements regardless of `bufferSize`. -/
theorem result_is_first_ten_values (r : Region) (s t : ControllerState)
    (h : r.syncFlag = 1) :
    (handleSharedComplete (some r) s).result = (payloadList r).take 10 ∧
    (handleSharedComplete (some r) s).result.length = min 10 r.size ∧
    (pollTick (some r) t).result = (payloadList r).take 10 ∧
    (pollTick (some r) t).result.length = min 10 r.size := by
  have hlen : (payloadList r).length = r.size := by simp [payloadList]
  refine ⟨rfl, ?_, ?_, ?_⟩
  · simp [handleSharedComplete, readResults, List.length_take, hlen]
  · simp [pollTick, h, readResults]
  · simp [pollTick, h, readResults, List.length_take, hlen]

/-- Witness for C10 on a completed 12-element region. -/
theorem result_is_first_ten_values_witness :
    ((handleSharedComplete (some ⟨12, fun _ => 0, 1⟩)
        ⟨true, 0, [], true⟩).result =
      (payloadList ⟨12, fun _ => 0, 1⟩).take 10) ∧
    ((handleSharedComplete (some ⟨12, fun _ => 0, 1⟩)
        ⟨true, 0, [], true⟩).result.length = min 10 12) ∧
    ((pollTick (some ⟨12, fun _ => 0, 1⟩) ⟨true, 0, [], true⟩).result =
      (payloadList ⟨12, fun _ => 0, 1⟩).take 10) ∧
    ((pollTick (some ⟨12, fun _ => 0, 1⟩) ⟨true, 0, [], true⟩).result.length =
      min 10 12) :=
  result_is_first_ten_values ⟨12, fun _ => 0, 1⟩ ⟨true, 0, [], true⟩
    ⟨true, 0, [], true⟩ rfl

/-- **C6**: the synchronization word is `0` immediately after allocation;
no controller event (poll tick, `shared-complete`, `progress`) ever writes
the region; a dropped worker message leaves the region unchanged, while a
valid `compute-shared` message ends with the flag stored as `1` — the only
transition the word undergoes; and from any state whose flag is `1`, every
event leaves it `1` (it never reverts to `0`). -/
theorem sync_word_single_transition (sqrtFn : ℕ → ℝ) (b : ℕ)
    (m : WorkerMessage) (s t : SysState) (h1 : t.region.syncFlag = 1) :
    (allocateRegion b).syncFlag = 0 ∧
    (sysStep sqrtFn SysEvent.pollTickEv s).region = s.region ∧
    (sysStep sqrtFn SysEvent.completeMsgEv s).region = s.region ∧
    (∀ p, (sysStep sqrtFn (SysEvent.progressMsgEv p) s).region = s.region) ∧
    (isSharedBufferMessage m = false →
      (sysStep sqrtFn (SysEvent.workerMessage m) s).region = s.region) ∧
    (isSharedBufferMessage m = true →
      (sysStep sqrtFn (SysEvent.workerMessage m) s).region.syncFlag = 1) ∧
    (∀ e, (sysStep sqrtFn e t).region.syncFlag = 1) := by
  refine ⟨rfl, rfl, rfl, fun _ => rfl, ?_, ?_, ?_⟩
  · intro h
    simp [sysStep, workerOnMessage_invalid sqrtFn m s.region h]
  · intro h
    obtain ⟨bs, its, _, _, heq⟩ := workerOnMessage_valid sqrtFn m s.region h
    simp only [sysStep, heq]
    rfl
  · intro e
    cases e with
    | workerMessage m' =>
      rcases workerOnMessage_flag sqrtFn m' t.region with hm | hm
      · simpa [sysStep, hm] using h1
      · simpa [sysStep] using hm
    | pollTickEv => exact h1
    | completeMsgEv => exact h1
    | progressMsgEv p => exact h1

/-- Witness for C6 at a concrete run state. -/
theorem sync_word_single_transition_witness :
    ((allocateRegion 1).syncFlag = 0 ∧
    (sysStep (fun n => (n : ℝ)) SysEvent.pollTickEv
        ⟨⟨1, fun _ => 0, 0⟩, ⟨true, 0, [], true⟩⟩).region =
      (⟨⟨1, fun _ => 0, 0⟩, ⟨true, 0, [], true⟩⟩ : SysState).region ∧
    (sysStep (fun n => (n : ℝ)) SysEvent.completeMsgEv
        ⟨⟨1, fun _ => 0, 0⟩, ⟨true, 0, [], true⟩⟩).region =
      (⟨⟨1, fun _ => 0, 0⟩, ⟨true, 0, [], true⟩⟩ : SysState).region ∧
    (∀ p, (sysStep (fun n => (n : ℝ)) (SysEvent.progressMsgEv p)
        ⟨⟨1, fun _ => 0, 0⟩, ⟨true, 0, [], true⟩⟩).region =
      (⟨⟨1, fun _ => 0, 0⟩, ⟨true, 0, [], true⟩⟩ : SysState).region) ∧
    (isSharedBufferMessage
        ⟨"compute-shared", some (JSValue.sab 12), some (JSValue.num 1),
          some (JSValue.num 1)⟩ = false →
      (sysStep (fun n => (n : ℝ))
          (SysEvent.workerMessage
            ⟨"compute-shared", some (JSValue.sab 12), some (JSValue.num 1),
              some (JSValue.num 1)⟩)
          ⟨⟨1, fun _ => 0, 0⟩, ⟨true, 0, [], true⟩⟩).region =
        (⟨⟨1, fun _ => 0, 0⟩, ⟨true, 0, [], true⟩⟩ : SysState).region) ∧
    (isSharedBufferMessage
        ⟨"compute-shared", some (JSValue.sab 12), some (JSValue.num 1),
          some (JSValue.num 1)⟩ = true →
      (sysStep (fun n => (n : ℝ))
          (SysEvent.workerMessage
            ⟨"compute-shared", some (JSValue.sab 12), some (JSValue.num 1),
              some (JSValue.num 1)⟩)
          ⟨⟨1, fun _ => 0, 0⟩, ⟨true, 0, [], true⟩⟩).region.syncFlag = 1) ∧
    (∀ e, (sysStep (fun n => (n : ℝ)) e
        ⟨⟨1, fun _ => 0, 1⟩, ⟨true, 0, [], true⟩⟩).region.syncFlag = 1)) :=
  sync_word_single_transition (fun n => (n : ℝ)) 1
    ⟨"compute-shared", some (JSValue.sab 12), some (JSValue.num 1),
      some (JSValue.num 1)⟩
    ⟨⟨1, fun _ => 0, 0⟩, ⟨true, 0, [], true⟩⟩
    ⟨⟨1, fun _ => 0, 1⟩, ⟨true, 0, [], true⟩⟩ rfl

lemma execFlag_append (l1 l2 : List EngineAction) (f : ℕ) :
    execFlag (l1 ++ l2) f = execFlag l2 (execFlag l1 f) := by
  simp [execFlag, List.foldl_append]

lemma execFlag_posts (msgs : List ℕ) (f : ℕ) :
    execFlag (msgs.map (fun p => EngineAction.post (OutMessage.progress p))) f
      = f := by
  induction msgs with
  | nil => rfl
  | cons x xs ih =>
    simpa [execFlag, applyAction] using ih

lemma execFlag_engineActions (n f : ℕ) : execFlag (engineActions n) f = 1 := by
  rw [engineActions, execFlag_append, execFlag_posts]
  rfl

lemma sharedComplete_not_mem_take (n k : ℕ)
    (hk : k ≤ (emittedProgress n).length + 2) :
    EngineAction.post OutMessage.sharedComplete ∉ (engineActions n).take k := by
  intro hmem
  rw [engineActions, List.take_append_eq_append_take] at hmem
  rcases List.mem_append.1 hmem with h | h
  · have := List.take_subset _ _ h
    simp only [List.mem_map] at this
    obtain ⟨p, _, hp⟩ := this
    exact absurd hp (by simp)
  · simp only [List.length_map] at h
    have hj : k - (emittedProgress n).length = 0 ∨
        k - (emittedProgress n).length = 1 ∨
        k - (emittedProgress n).length = 2 := by omega
    rcases hj with hj | hj | hj <;> rw [hj] at h <;> simp at h

lemma execFlag_take_of_complete_mem (n k f : ℕ)
    (hk : EngineAction.post OutMessage.sharedComplete ∈
      (engineActions n).take k) :
    execFlag ((engineActions n).take k) f = 1 := by
  have hlen : (engineActions n).length = (emittedProgress n).length + 3 := by
    simp [engineActions]
  by_cases h : (engineActions n).length ≤ k
  · rw [List.take_of_length_le h]
    exact execFlag_engineActions n f
  · exact absurd hk (sharedComplete_not_mem_take n k (by omega))

/-- **C7**: completion publication order. For a valid start message the
worker's visible actions are some progress posts, then the atomic store of
`1` into the synchronization word, then the `Atomics.notify` wake, and only
then the `shared-complete` post; consequently, for any prefix of the action
sequence that already contains the `shared-complete` post (in particular at
the moment the controller handles it), an atomic load of the synchronization
word yields `1`. -/
theorem completion_publication_order (n k f : ℕ)
    (hk : EngineAction.post OutMessage.sharedComplete ∈
      (engineActions n).take k) :
    (∃ pre, engineActions n = pre ++
        [EngineAction.storeFlag 1, EngineAction.notifyFlag,
         EngineAction.post OutMessage.sharedComplete] ∧
      ∀ a ∈ pre, ∃ p, a = EngineAction.post (OutMessage.progress p)) ∧
    execFlag ((engineActions n).take k) f = 1 := by
  refine ⟨⟨(emittedProgress n).map
      (fun p => EngineAction.post (OutMessage.progress p)), rfl, ?_⟩, ?_⟩
  · intro a ha
    obtain ⟨p, _, hp⟩ := List.mem_map.1 ha
    exact ⟨p, hp.symm⟩
  · exact execFlag_take_of_complete_mem n k f hk

/-- Witness for C7: with one pass, the action list is two progress posts
followed by store, notify and the completion post, and executing the full
prefix from flag value `0` ends with the flag at `1`. -/
theorem completion_publication_order_witness :
    (∃ pre, engineActions 1 = pre ++
        [EngineAction.storeFlag 1, EngineAction.notifyFlag,
         EngineAction.post OutMessage.sharedComplete] ∧
      ∀ a ∈ pre, ∃ p, a = EngineAction.post (OutMessage.progress p)) ∧
    execFlag ((engineActions 1).take 5) 0 = 1 :=
  completion_publication_order 1 5 0 (by decide)

lemma progressPercent_le_100 (iter n : ℕ) (h : iter ≤ n) :
    progressPercent iter n ≤ 100 := by
  rw [progressPercent]
  exact Nat.div_le_of_le_mul (Nat.mul_le_mul_right 100 h)

lemma emittedProgress_le_100 (n : ℕ) : ∀ x ∈ emittedProgress n, x ≤ 100 := by
  intro x hx
  rw [emittedProgress] at hx
  rcases List.mem_append.1 hx with h | h
  · obtain ⟨iter, hiter, rfl⟩ := List.mem_map.1 h
    rw [checkpointIters] at hiter
    have : iter < n := List.mem_range.1 (List.mem_filter.1 hiter).1
    exact progressPercent_le_100 iter n this.le
  · simp only [List.mem_singleton] at h
    omega

lemma emittedProgress_pairwise (n : ℕ) :
    (emittedProgress n).Pairwise (· ≤ ·) := by
  rw [emittedProgress]
  refine List.pairwise_append.2 ⟨?_, by simp, ?_⟩
  · rw [checkpointIters, List.pairwise_map]
    refine List.Pairwise.imp ?_ ((List.pairwise_lt_range n).filter _)
    intro a b hab
    exact Nat.div_le_div_right (Nat.mul_le_mul_right 100 hab.le)
  · intro x hx y hy
    simp only [List.mem_singleton] at hy
    subst hy
    obtain ⟨iter, hiter, rfl⟩ := List.mem_map.1 hx
    rw [checkpointIters] at hiter
    have : iter < n := List.mem_range.1 (List.mem_filter.1 hiter).1
    exact progressPercent_le_100 iter n this.le

lemma surfacedProgress_pairwise (n : ℕ) :
    (surfacedProgress n).Pairwise (· ≤ ·) := by
  rw [surfacedProgress]
  refine List.pairwise_cons.2 ⟨fun b _ => Nat.zero_le b, ?_⟩
  refine List.pairwise_append.2 ⟨emittedProgress_pairwise n, by simp, ?_⟩
  intro x hx y hy
  simp only [List.mem_singleton] at hy
  subst hy
  exact emittedProgress_le_100 n x hx

lemma surfacedProgress_getLast (n : ℕ) :
    (surfacedProgress n).getLast? = some 100 := by
  rw [surfacedProgress,
    show (0 : ℕ) :: (emittedProgress n ++ [100]) =
      (0 :: emittedProgress n) ++ [100] from rfl]
  exact List.getLast?_concat _

/-- **C8**: progress surfaced by the controller is monotone and terminal at
100: the full push-driven sequence (initial 0, the worker's checkpoint values
`floor((iter / iterations) * 100)` in order, 100 at completion) is
non-decreasing and ends at exactly 100; the synthesized fallback
`min(prev + 5, 95)` of the earlier variant never decreases reachable values
and stays strictly below 100 until completion; and both completion handlers
set progress to exactly 100. -/
theorem progress_monotone_and_terminal (n p : ℕ) (r : Region)
    (s t : ControllerState) (hn : 1 ≤ n) (hp : p ≤ 95)
    (hflag : r.syncFlag = 1) :
    (surfacedProgress n).Pairwise (· ≤ ·) ∧
    (surfacedProgress n).getLast? = some 100 ∧
    (p ≤ synthesizedProgress p ∧ synthesizedProgress p < 100) ∧
    (handleSharedComplete (some r) s).progress = 100 ∧
    (pollTick (some r) t).progress = 100 := by
  refine ⟨surfacedProgress_pairwise n, surfacedProgress_getLast n,
    ⟨?_, ?_⟩, rfl, ?_⟩
  · rw [synthesizedProgress]
    omega
  · rw [synthesizedProgress]
    omega
  · simp [pollTick, hflag]

/-- Witness for C8 at `iterations = 20`, `prev = 95`, a completed region. -/
theorem progress_monotone_and_terminal_witness :
    (surfacedProgress 20).Pairwise (· ≤ ·) ∧
    (surfacedProgress 20).getLast? = some 100 ∧
    (95 ≤ synthesizedProgress 95 ∧ synthesizedProgress 95 < 100) ∧
    (handleSharedComplete (some ⟨2, fun _ => 0, 1⟩)
      ⟨true, 0, [], true⟩).progress = 100 ∧
    (pollTick (some ⟨2, fun _ => 0, 1⟩) ⟨true, 0, [], true⟩).progress = 100 :=
  progress_monotone_and_terminal 20 95 ⟨2, fun _ => 0, 1⟩
    ⟨true, 0, [], true⟩ ⟨true, 0, [], true⟩ (by norm_num) (by norm_num) rfl

lemma length_filter_mod_range (s n : ℕ) (hs : 1 ≤ s) (hn : 1 ≤ n) :
    ((List.range n).filter (fun it => it % s = 0)).length = (n - 1) / s + 1 := by
  induction n with
  | zero => omega
  | succ m ih =>
    rcases Nat.eq_zero_or_pos m with rfl | hm
    · rw [show List.range 1 = [0] from rfl]
      simp
    · rw [List.range_succ, List.filter_append, List.length_append, ih hm]
      have hm1 : m - 1 + 1 = m := by omega
      have hsd := Nat.succ_div (m - 1) s
      rw [hm1] at hsd
      simp only [Nat.add_sub_cancel]
      by_cases hmod : m % s = 0
      · have : s ∣ m := Nat.dvd_of_mod_eq_zero hmod
        rw [if_pos this] at hsd
        simp [List.filter_cons, hmod]
        omega
      · have hnd : ¬ s ∣ m := fun hd => hmod (Nat.dvd_iff_mod_eq_zero.mp hd)
        rw [if_neg hnd] at hsd
        simp [List.filter_cons, hmod]
        omega

lemma n_le_39_mul_checkpointStep (n : ℕ) : n ≤ 39 * checkpointStep n := by
  rw [checkpointStep]
  omega

lemma inLoopEmissions_eq (n : ℕ) (hn : 1 ≤ n) :
    inLoopEmissions n = (n - 1) / checkpointStep n + 1 := by
  rw [inLoopEmissions, checkpointIters]
  exact length_filter_mod_range (checkpointStep n) n (le_max_left 1 _) hn

lemma inLoopEmissions_le_39 (n : ℕ) (hn : 1 ≤ n) : inLoopEmissions n ≤ 39 := by
  rw [inLoopEmissions_eq n hn]
  have h1 := n_le_39_mul_checkpointStep n
  have h2 : 1 ≤ checkpointStep n := le_max_left 1 _
  have h3 : (n - 1) / checkpointStep n < 39 :=
    (Nat.div_lt_iff_lt_mul (by omega)).2 (by omega)
  omega

lemma emittedProgress_length (n : ℕ) :
    (emittedProgress n).length = inLoopEmissions n + 1 := by
  simp [emittedProgress, inLoopEmissions]

/-- **C9, counterexample**: at `iterations = 2` (and likewise for every
`iterations ≤ 39`, where the checkpoint spacing `max(1, ⌊iterations/20⌋)`
is `1`) the checkpoint test fires on *every* iteration of the pass loop, so
the claim's "not on every iteration" fails as a universal statement. -/
theorem progress_emitted_every_iteration_at_two :
    checkpointIters 2 = List.range 2 ∧ inLoopEmissions 2 = 2 := by
  decide

/-- **C9, amended**: the worker emits in-loop progress messages exactly at
the iterations divisible by `max(1, ⌊iterations/20⌋)` — that is
`⌊(iterations-1)/max(1, ⌊iterations/20⌋)⌋ + 1` of them — each carrying
`floor((iter / iterations) * 100)`; the total number of posted progress
messages (including the final `onProgress(100)`) is bounded by the constant
`40` for every `iterations ≥ 1`, and for `iterations ≥ 40` the worker indeed
does not emit on every iteration. -/
theorem progress_emission_bounded (n : ℕ) (hn : 1 ≤ n) :
    inLoopEmissions n = (n - 1) / checkpointStep n + 1 ∧
    (emittedProgress n).length = inLoopEmissions n + 1 ∧
    (emittedProgress n).length ≤ 40 ∧
    (40 ≤ n → inLoopEmissions n < n) ∧
    emittedProgress n =
      (checkpointIters n).map (fun iter => progressPercent iter n) ++ [100] := by
  refine ⟨inLoopEmissions_eq n hn, emittedProgress_length n, ?_, ?_, rfl⟩
  · rw [emittedProgress_length n]
    have := inLoopEmissions_le_39 n hn
    omega
  · intro h40
    have := inLoopEmissions_le_39 n hn
    omega

/-- Witness for C9 (amended) at `iterations = 100`. -/
theorem progress_emission_bounded_witness :
    inLoopEmissions 100 = (100 - 1) / checkpointStep 100 + 1 ∧
    (emittedProgress 100).length = inLoopEmissions 100 + 1 ∧
    (emittedProgress 100).length ≤ 40 ∧
    (40 ≤ 100 → inLoopEmissions 100 < 100) ∧
    emittedProgress 100 =
      (checkpointIters 100).map (fun iter => progressPercent iter 100) ++
        [100] :=
  progress_emission_bounded 100 (by norm_num)
